import Mathlib

/-!
# Verification of the app-hub storefront client

Shallow embedding of the data model and the handlers of the app-hub
repository (a storefront-and-administration web client over a Supabase
backend), together with theorems settling the frozen claims about it.

Sources embedded:
* `src/types.ts` — the `AppRecord`, `AppVersion` and `Review` entities;
* `src/pages/HomePage.tsx` — the public directory filter (`filteredApps`);
* `src/pages/AdminDashboard.tsx` — the admin console handlers
  (`handleSubmit`, `handleRollback`, `handleStatusChange`, `handleDelete`,
  the admin `filteredApps`);
* `src/pages/LoginPage.tsx` — `handleLogin`;
* the app detail page — `fetchAppDetails` and `handleDownload`.

Backend calls (Supabase) are modelled by their observable behaviour: a
call returns a result object carrying either data or an error value
(`apiError`), or the awaited promise itself rejects (`netError`).  The
code's convention `if (error) throw error` decides which failures reach
the surrounding `catch`.
-/

/-- Listing lifecycle status (`types.ts`: `'pending' | 'published' | 'rejected'`). -/
inductive Status where
  | pending
  | published
  | rejected
deriving DecidableEq, Repr

/-- `AppRecord` from `src/types.ts`.  Timestamps are modelled as `Nat`
(the backend orders ISO strings chronologically); `rating` is a rational
since the UI holds fractional ratings such as 4.8. -/
structure AppRecord where
  id : String
  name : String
  description : String
  category : String
  icon_url : String
  apk_url : String
  screenshots : List String
  rating : ℚ
  downloads : Nat
  developer : String
  version : String
  size : String
  created_at : Nat
  updated_at : Nat
  status : Status
deriving DecidableEq, Repr

/-- `AppVersion` from `src/types.ts`. -/
structure AppVersion where
  id : String
  app_id : String
  version : String
  release_notes : String
  apk_url : String
  created_at : Nat
deriving DecidableEq, Repr

/-- `Review` from `src/types.ts`. -/
structure Review where
  id : String
  app_id : String
  user_name : String
  rating : Nat
  comment : String
  created_at : Nat
deriving DecidableEq, Repr

/-- The backend's persistent tables touched by this client. -/
structure Db where
  apps : List AppRecord
  app_versions : List AppVersion
  reviews : List Review
deriving DecidableEq, Repr

/-! ## JavaScript string helpers

`s.toLowerCase().includes(t.toLowerCase())` is embedded on character
lists: lowercase each character, then test contiguous-sublist
containment (JS `includes` is substring containment, and `includes("")`
is `true`, matching `[] <:+: l`). -/

/-- `toLowerCase` on a string, as the list of its lowercased characters. -/
def jsLower (s : String) : List Char := s.data.map Char.toLower

/-- JS `hay.includes(sub)` on character lists. -/
def listIncludes (hay sub : List Char) : Bool := decide (sub <:+: hay)

/-! ## Public directory filter (`HomePage.tsx`, `filteredApps`) -/

/-- `matchesSearch` from `HomePage.tsx`:
`app.name.toLowerCase().includes(q.toLowerCase()) || app.description.toLowerCase().includes(q.toLowerCase())`. -/
def homeMatchesSearch (app : AppRecord) (searchQuery : String) : Bool :=
  listIncludes (jsLower app.name) (jsLower searchQuery) ||
    listIncludes (jsLower app.description) (jsLower searchQuery)

/-- `matchesCategory` from `HomePage.tsx`:
`selectedCategory === 'All' || app.category === selectedCategory`. -/
def homeMatchesCategory (app : AppRecord) (selectedCategory : String) : Bool :=
  selectedCategory = "All" || app.category = selectedCategory

/-- `filteredApps` from `HomePage.tsx` lines 109–114. -/
def homeFilteredApps (apps : List AppRecord) (searchQuery selectedCategory : String) :
    List AppRecord :=
  apps.filter fun app => homeMatchesSearch app searchQuery && homeMatchesCategory app selectedCategory

/-! ## Admin console filter (`AdminDashboard.tsx`, `filteredApps`, lines 415–418) -/

/-- `filteredApps` from `AdminDashboard.tsx`:
`app.name.toLowerCase().includes(q.toLowerCase()) || app.developer.toLowerCase().includes(q.toLowerCase())`.
Note: the description is not consulted. -/
def adminFilteredApps (apps : List AppRecord) (searchQuery : String) : List AppRecord :=
  apps.filter fun app =>
    listIncludes (jsLower app.name) (jsLower searchQuery) ||
      listIncludes (jsLower app.developer) (jsLower searchQuery)

/-- The predicate the spec ascribes to the admin filter (for comparison
with `adminFilteredApps`): the public directory's search predicate —
name or description containment — extended with a developer-name match. -/
def adminFilterSpec (apps : List AppRecord) (searchQuery : String) : List AppRecord :=
  apps.filter fun app =>
    homeMatchesSearch app searchQuery ||
      listIncludes (jsLower app.developer) (jsLower searchQuery)

/-- A listing used in concrete evaluations: matched by description only. -/
def descOnlyApp : AppRecord :=
  { id := "a1", name := "Alpha", description := "a needle in the haystack",
    category := "Tools", icon_url := "i", apk_url := "p", screenshots := [],
    rating := 0, downloads := 0, developer := "Beta", version := "1.0.0",
    size := "1MB", created_at := 0, updated_at := 0, status := Status.published }

/-! ## Backend call outcomes

A Supabase call resolves to a result object `{ data, error }`; it only
throws when the underlying request itself rejects.  So each call has
three observable outcomes. -/

/-- Outcome of one backend call: `ok` (no error in the result),
`apiError` (the result object carries an error value), or `netError`
(the awaited promise rejects). -/
inductive CallOutcome where
  | ok
  | apiError
  | netError
deriving DecidableEq, Repr

/-- Whether the code's `if (error) throw error` check (or a rejection)
sends this outcome to the surrounding `catch`. -/
def CallOutcome.throwsWhenChecked : CallOutcome → Bool
  | .ok => false
  | .apiError => true
  | .netError => true

/-- A file attached to the admin form, modelled by what uploading it
returns: a public URL on success, or a failing outcome (`uploadFile`
checks the upload error and throws it). -/
inductive UploadFile where
  | succeeds (publicUrl : String)
  | fails (o : CallOutcome)
deriving DecidableEq, Repr

/-! ## Admin form submission (`AdminDashboard.tsx`, `handleSubmit`, lines 332–407) -/

/-- The form fields and attachments read by `handleSubmit`. -/
structure SubmitForm where
  name : String
  developer : String
  description : String
  category : String
  version : String
  icon_url : String
  apk_url : String
  release_notes : String
  icon_file : Option UploadFile
  apk_file : Option UploadFile
  screenshot_files : List UploadFile
deriving DecidableEq, Repr

/-- Environment of one submission: outcomes of the listing write and the
version insert, the row ids the backend assigns, and the clock
(`new Date().toISOString()`). -/
structure SubmitEnv where
  listingWrite : CallOutcome
  versionInsert : CallOutcome
  newId : String
  newVersionId : String
  now : Nat
deriving DecidableEq, Repr

/-- Result of a submission as the user observes it: the success path
(re-fetch, modal closed, sheet synced) or the `catch` branch showing the
`alert('Error saving app. ...')`. -/
inductive SubmitResult where
  | success
  | failureAlert
deriving DecidableEq, Repr

/-- Resolve one optional asset: uploaded file's public URL if a file is
attached (aborting on upload failure), else the URL form field. -/
def resolveAsset (file : Option UploadFile) (urlField : String) : Except Unit String :=
  match file with
  | none => .ok urlField
  | some (.succeeds u) => .ok u
  | some (.fails _) => .error ()

/-- Resolve the screenshot uploads (`Promise.all` over all selected
files): the list of public URLs, aborting if any upload fails. -/
def resolveScreens : List UploadFile → Except Unit (List String)
  | [] => .ok []
  | .succeeds u :: rest =>
      match resolveScreens rest with
      | .ok us => .ok (u :: us)
      | .error e => .error e
  | .fails _ :: _ => .error ()

/-- The release notes stored by the version insert:
`releaseNotes || 'Initial release'`. -/
def storedReleaseNotes (releaseNotes : String) : String :=
  if releaseNotes = "" then "Initial release" else releaseNotes

/-- The listing row written on the create path:
`{ ...appData, downloads: 0, rating: 0 }` with status forced `pending`. -/
def createdListing (form : SubmitForm) (icon_url apk_url : String)
    (screenshots : List String) (env : SubmitEnv) : AppRecord :=
  { id := env.newId, name := form.name, description := form.description,
    category := form.category, icon_url := icon_url, apk_url := apk_url,
    screenshots := screenshots, rating := 0, downloads := 0,
    developer := form.developer, version := form.version, size := "",
    created_at := env.now, updated_at := env.now, status := Status.pending }

/-- The fields `appData` overwrites on the update path (downloads,
rating, id, size and created_at are untouched; status is copied from the
record being edited). -/
def updatedListing (old : AppRecord) (form : SubmitForm) (editing : AppRecord)
    (icon_url apk_url : String) (screenshots : List String) (env : SubmitEnv) : AppRecord :=
  { old with
    name := form.name, developer := form.developer,
    description := form.description, category := form.category,
    version := form.version, icon_url := icon_url, apk_url := apk_url,
    screenshots := screenshots, status := editing.status,
    updated_at := env.now }

/-- The Version Record appended after the listing write. -/
def mkVersionRecord (appId : String) (form : SubmitForm) (apk_url : String)
    (env : SubmitEnv) : AppVersion :=
  { id := env.newVersionId, app_id := appId, version := form.version,
    release_notes := storedReleaseNotes form.release_notes,
    apk_url := apk_url, created_at := env.now }

/-- The version-history insert step.  The code awaits
`supabase.from('app_versions').insert([...])` WITHOUT checking the
returned error (unlike every other call), so an `apiError` outcome is
silently ignored and the submission still succeeds; only a rejected
promise (`netError`) reaches the `catch`. -/
def versionStep (db : Db) (appId : String) (form : SubmitForm) (apk_url : String)
    (env : SubmitEnv) : Db × SubmitResult :=
  match env.versionInsert with
  | .ok =>
      ({ db with app_versions := db.app_versions ++ [mkVersionRecord appId form apk_url env] },
        .success)
  | .apiError => (db, .success)
  | .netError => (db, .failureAlert)

/-- `handleSubmit` from `AdminDashboard.tsx` lines 332–407, as a state
transformer on the backend tables.  `editingApp` is the record being
edited (`None` on the create path). -/
def handleSubmit (db : Db) (form : SubmitForm) (editingApp : Option AppRecord)
    (env : SubmitEnv) : Db × SubmitResult :=
  let existing : List String := match editingApp with
    | some a => a.screenshots
    | none => []
  match resolveAsset form.icon_file form.icon_url,
        resolveAsset form.apk_file form.apk_url,
        resolveScreens form.screenshot_files with
  | .ok icon_url, .ok apk_url, .ok newScreens =>
      let screenshots := existing ++ newScreens
      match editingApp with
      | some a =>
          match env.listingWrite with
          | .ok =>
              let db1 := { db with
                apps := db.apps.map fun r =>
                  if r.id = a.id then updatedListing r form a icon_url apk_url screenshots env
                  else r }
              versionStep db1 a.id form apk_url env
          | _ => (db, .failureAlert)
      | none =>
          match env.listingWrite with
          | .ok =>
              let db1 := { db with
                apps := db.apps ++ [createdListing form icon_url apk_url screenshots env] }
              versionStep db1 env.newId form apk_url env
          | _ => (db, .failureAlert)
  | _, _, _ => (db, .failureAlert)

/-! ## Rollback (`AdminDashboard.tsx`, `handleRollback`, lines 213–239) -/

/-- Result of a confirmed rollback: the success alert, or the
`alert('Rollback failed.')` branch. -/
inductive RollbackResult where
  | success
  | failureAlert
deriving DecidableEq, Repr

/-- `handleRollback` from `AdminDashboard.tsx` lines 213–239 (after the
interactive confirmation): update `apps` setting `version`, `apk_url`
and `updated_at` from the chosen historical record on the row of the
selected app; the error is checked and thrown. -/
def handleRollback (db : Db) (selectedApp : AppRecord) (v : AppVersion)
    (write : CallOutcome) (now : Nat) : Db × RollbackResult :=
  match write with
  | .ok =>
      ({ db with
          apps := db.apps.map fun r =>
            if r.id = selectedApp.id then
              { r with version := v.version, apk_url := v.apk_url, updated_at := now }
            else r },
        .success)
  | _ => (db, .failureAlert)

/-! ## Status change (`AdminDashboard.tsx`, `handleStatusChange`, lines 299–319) -/

/-- `handleStatusChange`: update `status` and `updated_at` on the row
with the given id; the error is checked and thrown (the catch only
logs). -/
def handleStatusChange (db : Db) (id : String) (newStatus : Status)
    (write : CallOutcome) (now : Nat) : Db :=
  match write with
  | .ok =>
      { db with
        apps := db.apps.map fun r =>
          if r.id = id then { r with status := newStatus, updated_at := now } else r }
  | _ => db

/-! ## Delete (`AdminDashboard.tsx`, `handleDelete`, lines 321–330) -/

/-- `handleDelete` (after confirmation): delete the `apps` row with the
given id; no cascading deletion of versions or reviews. -/
def handleDelete (db : Db) (id : String) (write : CallOutcome) : Db :=
  match write with
  | .ok => { db with apps := db.apps.filter fun r => ¬ r.id = id }
  | _ => db

/-! ## Download (app detail page, `handleDownload`, lines 94–112) -/

/-- Observable result of `handleDownload`: the new table state, the
local view state of the app (updated optimistically only on the success
path), and the URL passed to `window.open` (opened on both paths). -/
structure DownloadResult where
  db : Db
  localApp : AppRecord
  openedUrl : String
deriving DecidableEq, Repr

/-- `handleDownload` from the app detail page: write
`downloads: (app.downloads || 0) + 1` (a read-modify-write from the
LOCAL copy) on the row with the app's id, mirror the value into local
state, then open `app.apk_url`.  On a thrown failure the local state is
left alone and the URL is still opened.  (On `apiError` the unchecked
result leaves the table unchanged but the optimistic local update and
the open still run.) -/
def handleDownload (db : Db) (app : AppRecord) (write : CallOutcome) : DownloadResult :=
  match write with
  | .netError => { db := db, localApp := app, openedUrl := app.apk_url }
  | .apiError =>
      { db := db, localApp := { app with downloads := app.downloads + 1 },
        openedUrl := app.apk_url }
  | .ok =>
      { db := { db with
          apps := db.apps.map fun r =>
            if r.id = app.id then { r with downloads := app.downloads + 1 } else r },
        localApp := { app with downloads := app.downloads + 1 },
        openedUrl := app.apk_url }

/-! ## App detail page (`fetchAppDetails`, lines 29–75) -/

/-- The view state the detail page ends in: the listing shown (the page
renders "App not found" only when this is `none`) and the reviews shown. -/
structure DetailPage where
  app : Option AppRecord
  reviews : List Review
deriving DecidableEq, Repr

/-- The hardcoded fallback listing the catch branch installs
(`setApp({ id: id || '1', name: 'Nexus Browser', ... })`). -/
def mockDetailApp (id : String) (now : Nat) : AppRecord :=
  { id := if id = "" then "1" else id, name := "Nexus Browser",
    description := "The fastest browser for the modern web with built-in ad blocking and privacy features. Experience the web like never before with lightning-fast page loads, secure browsing, and a customizable interface that adapts to your needs.\n\nKey Features:\n- Built-in Ad Blocker\n- Enhanced Privacy Protection\n- Customizable Themes\n- Cross-device Sync\n- Developer Tools Integration",
    category := "Tools", icon_url := "https://picsum.photos/seed/browser/400/400",
    apk_url := "#",
    screenshots := ["https://picsum.photos/seed/s1/800/450",
                    "https://picsum.photos/seed/s2/800/450",
                    "https://picsum.photos/seed/s3/800/450"],
    rating := 24/5, downloads := 12500, developer := "Nexus Labs",
    version := "2.4.0", size := "45MB", created_at := now, updated_at := now,
    status := Status.published }

/-- Reviews ordered newest-first (`order('created_at', { ascending: false })`). -/
def sortReviewsDesc (rs : List Review) : List Review :=
  rs.mergeSort fun r1 r2 => r2.created_at ≤ r1.created_at

/-- `fetchAppDetails` from the app detail page: `.single()` on the rows
matching the identifier errors unless exactly one row matches; the
`catch` then installs the hardcoded mock listing (so the page still
renders a listing, with the initial empty review list).  On the found
path, all reviews for the identifier are fetched newest-first. -/
def fetchAppDetails (db : Db) (id : String) (now : Nat) : DetailPage :=
  let rows := db.apps.filter fun a => a.id = id
  match rows with
  | [a] =>
      { app := some a,
        reviews := sortReviewsDesc (db.reviews.filter fun r => r.app_id = id) }
  | _ => { app := some (mockDetailApp id now), reviews := [] }

/-! ## Login (`LoginPage.tsx`, `handleLogin`, lines 88–115) -/

/-- Outcome of `supabase.auth.signInWithPassword`: a session, or a
failure with the error message the backend reported. -/
inductive AuthOutcome where
  | session
  | failed (message : String)
deriving DecidableEq, Repr

/-- What `handleLogin` leaves behind: the error banner, whether it wrote
the `nexus_demo_session` flag, and the navigation target. -/
structure LoginResult where
  error : Option String
  demoFlagSet : Bool
  nav : Option String
deriving DecidableEq, Repr

/-- `handleLogin` from `LoginPage.tsx` lines 88–115: on auth success
navigate to the admin console; on failure set the error banner
(`err.message || 'Failed to sign in. Please check your credentials.'`),
and additionally — exactly for the literal pair
`admin@nexus.com` / `password123` — clear the error, set the local
demo-session flag and navigate to the admin console anyway. -/
def handleLogin (email password : String) (auth : AuthOutcome) : LoginResult :=
  match auth with
  | .session => { error := none, demoFlagSet := false, nav := some "/admin" }
  | .failed message =>
      if email = "admin@nexus.com" && password = "password123" then
        { error := none, demoFlagSet := true, nav := some "/admin" }
      else
        { error := some (if message = "" then "Failed to sign in. Please check your credentials." else message),
          demoFlagSet := false, nav := none }

/-! ## All listing-write operations of this client (for the invariants claim) -/

/-- The listing write operations this client performs: create/update
submission, status change, rollback, and the download-counter update. -/
inductive WriteOp where
  | submit (form : SubmitForm) (editingApp : Option AppRecord) (env : SubmitEnv)
  | statusChange (id : String) (s : Status) (write : CallOutcome) (now : Nat)
  | rollback (app : AppRecord) (v : AppVersion) (write : CallOutcome) (now : Nat)
  | download (app : AppRecord) (write : CallOutcome)
deriving DecidableEq, Repr

/-- Effect of one write operation on the backend tables. -/
def applyOp (db : Db) : WriteOp → Db
  | .submit form e env => (handleSubmit db form e env).1
  | .statusChange id s w now => handleStatusChange db id s w now
  | .rollback a v w now => (handleRollback db a v w now).1
  | .download a w => (handleDownload db a w).db

/-- The single-client premise for the download op: the local copy the
handler reads was fetched from the store, so it agrees with the stored
row (concurrent writers are excluded from the guarantee). -/
def opLocalSync (db : Db) : WriteOp → Prop
  | .download a _ => ∀ r ∈ db.apps, r.id = a.id → r.downloads = a.downloads
  | _ => True

/-! ## Concrete inputs for counterexamples and witnesses -/

/-- An empty database. -/
def emptyDb : Db := { apps := [], app_versions := [], reviews := [] }

/-- A database holding just `descOnlyApp`. -/
def oneAppDb : Db := { apps := [descOnlyApp], app_versions := [], reviews := [] }

/-- A submission form with no file attachments and empty release notes. -/
def cForm : SubmitForm :=
  { name := "Test App", developer := "Dev", description := "d",
    category := "Tools", version := "1.0.0",
    icon_url := "https://x/icon.png", apk_url := "https://x/app.apk",
    release_notes := "", icon_file := none, apk_file := none,
    screenshot_files := [] }

/-- The same form carrying six screenshot files, all of which upload
successfully. -/
def cForm6 : SubmitForm :=
  { cForm with screenshot_files :=
      [UploadFile.succeeds "u1", UploadFile.succeeds "u2", UploadFile.succeeds "u3",
       UploadFile.succeeds "u4", UploadFile.succeeds "u5", UploadFile.succeeds "u6"] }

/-- A submission environment in which every backend call succeeds. -/
def envOk : SubmitEnv :=
  { listingWrite := CallOutcome.ok, versionInsert := CallOutcome.ok,
    newId := "new1", newVersionId := "ver1", now := 10 }

/-- The same environment but the version insert returns an error in its
result object (which the code never checks). -/
def envVerApiErr : SubmitEnv := { envOk with versionInsert := CallOutcome.apiError }

/-- A historical version record of `descOnlyApp`. -/
def cVersion : AppVersion :=
  { id := "v0", app_id := "a1", version := "0.9.0",
    release_notes := "old", apk_url := "https://x/old.apk", created_at := 1 }

/-- Two reviews of `descOnlyApp`, the second more recent. -/
def cReview1 : Review :=
  { id := "r1", app_id := "a1", user_name := "u1", rating := 4, comment := "ok",
    created_at := 3 }

/-- See `cReview1`. -/
def cReview2 : Review :=
  { id := "r2", app_id := "a1", user_name := "u2", rating := 5, comment := "good",
    created_at := 8 }

/-- A database with one listing, one version record and two reviews. -/
def richDb : Db :=
  { apps := [descOnlyApp], app_versions := [cVersion],
    reviews := [cReview1, cReview2] }

/-! # Theorems settling the claims -/

/-- Helper: the version-insert step never touches the `apps` table. -/
theorem versionStep_apps (db : Db) (appId : String) (form : SubmitForm)
    (apk : String) (env : SubmitEnv) :
    ((versionStep db appId form apk env).1).apps = db.apps := by
  unfold versionStep
  cases env.versionInsert <;> rfl

/-- Helper: an empty needle is contained in every haystack
(JS `includes("")` is `true`). -/
theorem listIncludes_nil (hay : List Char) : listIncludes hay [] = true := by
  simp [listIncludes]

/-- C5: the public directory shows exactly the listings whose name or
description case-insensitively contains the search text and whose
category is the selected one or the selection is the sentinel "All";
with an empty search, "All" yields the full set and a category C ≠ "All"
yields exactly the listings of category C. -/
theorem homeFilter_exact :
    ∀ (apps : List AppRecord) (q c : String),
      (∀ a, a ∈ homeFilteredApps apps q c ↔
          a ∈ apps ∧
            (listIncludes (jsLower a.name) (jsLower q) = true ∨
              listIncludes (jsLower a.description) (jsLower q) = true) ∧
            (c = "All" ∨ a.category = c)) ∧
      homeFilteredApps apps "" "All" = apps ∧
      (c ≠ "All" → homeFilteredApps apps "" c = apps.filter fun a => a.category = c) := by
  intro apps q c
  refine ⟨fun a => ?_, ?_, fun hc => ?_⟩
  · simp [homeFilteredApps, homeMatchesSearch, homeMatchesCategory, List.mem_filter,
      and_assoc]
  · rw [homeFilteredApps, List.filter_eq_self]
    intro a _
    simp [homeMatchesSearch, homeMatchesCategory, jsLower, listIncludes_nil]
  · rw [homeFilteredApps, List.filter_congr]
    intro a _
    simp [homeMatchesSearch, homeMatchesCategory, jsLower, listIncludes_nil, hc]

/-- Witness for `homeFilter_exact` at a concrete input. -/
theorem homeFilter_exact_witness :
    ("Games" ≠ "All") ∧
      homeFilteredApps [descOnlyApp] "" "Games" =
        List.filter (fun a => a.category = "Games") [descOnlyApp] := by
  exact ⟨by decide, (homeFilter_exact [descOnlyApp] "" "Games").2.2 (by decide)⟩

/-- C4 counterexample: the admin filter does not use the public
directory's predicate — a listing matched only by its description is
returned by the public predicate extended with a developer match (what
the claim asserts the admin filter computes) but not by the admin
filter itself. -/
theorem adminFilter_claim_counterexample :
    adminFilteredApps [descOnlyApp] "needle" = [] ∧
      adminFilterSpec [descOnlyApp] "needle" = [descOnlyApp] ∧
      homeFilteredApps [descOnlyApp] "needle" "All" = [descOnlyApp] := by
  decide

/-- C4 amended: the admin console's list filter matches a listing, of
any status, exactly when the search text is case-insensitively contained
in its name or in its developer name (the description is not consulted). -/
theorem adminFilter_matches_name_or_developer :
    ∀ (apps : List AppRecord) (q : String) (a : AppRecord),
      a ∈ adminFilteredApps apps q ↔
        a ∈ apps ∧
          (listIncludes (jsLower a.name) (jsLower q) = true ∨
            listIncludes (jsLower a.developer) (jsLower q) = true) := by
  intro apps q a
  simp [adminFilteredApps, List.mem_filter]

/-- C2: a successful rollback to a historical record V rewrites exactly
the selected listing — setting its version label and package reference
to V's values and refreshing its updated timestamp, all other fields
unchanged — leaves every other listing untouched, and alters or removes
no Version Record (including V itself) and no review. -/
theorem rollback_updates_listing_preserves_versions
    (db : Db) (app : AppRecord) (v : AppVersion) (now : Nat) :
    ((handleRollback db app v CallOutcome.ok now).2 = RollbackResult.success) ∧
      ((handleRollback db app v CallOutcome.ok now).1.app_versions = db.app_versions) ∧
      ((handleRollback db app v CallOutcome.ok now).1.reviews = db.reviews) ∧
      ((handleRollback db app v CallOutcome.ok now).1.apps.length = db.apps.length) ∧
      (∀ r ∈ db.apps,
        (r.id = app.id →
          { r with version := v.version, apk_url := v.apk_url, updated_at := now }
            ∈ (handleRollback db app v CallOutcome.ok now).1.apps) ∧
        (r.id ≠ app.id → r ∈ (handleRollback db app v CallOutcome.ok now).1.apps)) := by
  refine ⟨rfl, rfl, rfl, by simp [handleRollback], fun r hr => ⟨fun hid => ?_, fun hid => ?_⟩⟩
  · simp only [handleRollback]
    exact List.mem_map.mpr ⟨r, hr, by simp [hid]⟩
  · simp only [handleRollback]
    exact List.mem_map.mpr ⟨r, hr, by simp [hid]⟩

/-- Witness for `rollback_updates_listing_preserves_versions` at a
concrete input. -/
theorem rollback_updates_listing_witness :
    descOnlyApp ∈ richDb.apps ∧ descOnlyApp.id = descOnlyApp.id ∧
      { descOnlyApp with version := cVersion.version, apk_url := cVersion.apk_url, updated_at := 42 }
        ∈ (handleRollback richDb descOnlyApp cVersion CallOutcome.ok 42).1.apps ∧
      (handleRollback richDb descOnlyApp cVersion CallOutcome.ok 42).1.app_versions
        = richDb.app_versions :=
  ⟨by decide, rfl,
    ((rollback_updates_listing_preserves_versions richDb descOnlyApp cVersion 42).2.2.2.2
        descOnlyApp (by decide)).1 rfl,
    (rollback_updates_listing_preserves_versions richDb descOnlyApp cVersion 42).2.1⟩

/-- C6: with the local copy in sync with the stored row (races with
concurrent writers excluded), a download writes exactly the old stored
count plus one, mirrors that count into the local view, and opens the
listing's package reference. -/
theorem download_increments_by_one
    (db : Db) (app r : AppRecord) (hr : r ∈ db.apps) (hid : r.id = app.id)
    (hsync : r.downloads = app.downloads) :
    ({ r with downloads := r.downloads + 1 }
        ∈ (handleDownload db app CallOutcome.ok).db.apps) ∧
      (handleDownload db app CallOutcome.ok).localApp.downloads = r.downloads + 1 ∧
      (handleDownload db app CallOutcome.ok).openedUrl = app.apk_url := by
  refine ⟨?_, by simp [handleDownload, hsync], rfl⟩
  simp only [handleDownload]
  exact List.mem_map.mpr ⟨r, hr, by simp [hid, hsync]⟩

/-- Witness for `download_increments_by_one` at a concrete input. -/
theorem download_increments_witness :
    descOnlyApp ∈ oneAppDb.apps ∧
      ({ descOnlyApp with downloads := descOnlyApp.downloads + 1 }
          ∈ (handleDownload oneAppDb descOnlyApp CallOutcome.ok).db.apps) ∧
      (handleDownload oneAppDb descOnlyApp CallOutcome.ok).localApp.downloads
          = descOnlyApp.downloads + 1 :=
  ⟨by decide,
    (download_increments_by_one oneAppDb descOnlyApp descOnlyApp (by decide) rfl rfl).1,
    (download_increments_by_one oneAppDb descOnlyApp descOnlyApp (by decide) rfl rfl).2.1⟩

/-- C8: when the backend password sign-in fails, the literal credential
pair admin@nexus.com / password123 clears the error, sets the local
demo-session flag and navigates to the admin console; any other pair
leaves an error banner, sets no flag and does not navigate. -/
theorem login_demo_bypass :
    (∀ m, handleLogin "admin@nexus.com" "password123" (AuthOutcome.failed m)
        = { error := none, demoFlagSet := true, nav := some "/admin" }) ∧
      (∀ e p m, ¬(e = "admin@nexus.com" ∧ p = "password123") →
        handleLogin e p (AuthOutcome.failed m)
          = { error := some (if m = "" then "Failed to sign in. Please check your credentials." else m),
              demoFlagSet := false, nav := none }) := by
  refine ⟨fun m => rfl, fun e p m h => ?_⟩
  have : ¬(e = "admin@nexus.com" && p = "password123") = true := by
    simpa [Bool.and_eq_true, decide_eq_true_eq] using h
  simp [handleLogin, this]

/-- Witness for `login_demo_bypass` at concrete inputs. -/
theorem login_demo_bypass_witness :
    handleLogin "admin@nexus.com" "password123" (AuthOutcome.failed "Invalid login credentials")
        = { error := none, demoFlagSet := true, nav := some "/admin" } ∧
      handleLogin "eve@evil.com" "hunter2" (AuthOutcome.failed "Invalid login credentials")
        = { error := some "Invalid login credentials", demoFlagSet := false, nav := none } :=
  ⟨(login_demo_bypass).1 "Invalid login credentials", by
    have h := (login_demo_bypass).2 "eve@evil.com" "hunter2" "Invalid login credentials"
      (by decide)
    simpa using h⟩

/-- C1: with every backend call succeeding, the create path (no listing
being edited) appends exactly one listing with status pending, zero
downloads and zero rating, and appends exactly one Version Record for
it whose release notes are the submitted text, defaulting to "Initial
release" when that text is empty; on the update path every written row
keeps the status of the record being edited. -/
theorem submit_create_defaults_update_preserves_status
    (db : Db) (form : SubmitForm) (env : SubmitEnv)
    (icon apk : String) (screens : List String)
    (hicon : resolveAsset form.icon_file form.icon_url = Except.ok icon)
    (hapk : resolveAsset form.apk_file form.apk_url = Except.ok apk)
    (hscr : resolveScreens form.screenshot_files = Except.ok screens)
    (hw : env.listingWrite = CallOutcome.ok)
    (hv : env.versionInsert = CallOutcome.ok) :
    ((handleSubmit db form none env).2 = SubmitResult.success ∧
      (handleSubmit db form none env).1.apps
        = db.apps ++ [createdListing form icon apk screens env] ∧
      (createdListing form icon apk screens env).status = Status.pending ∧
      (createdListing form icon apk screens env).downloads = 0 ∧
      (createdListing form icon apk screens env).rating = 0 ∧
      (handleSubmit db form none env).1.app_versions
        = db.app_versions ++ [mkVersionRecord env.newId form apk env] ∧
      (mkVersionRecord env.newId form apk env).app_id
        = (createdListing form icon apk screens env).id ∧
      (mkVersionRecord env.newId form apk env).release_notes
        = (if form.release_notes = "" then "Initial release" else form.release_notes)) ∧
    (∀ a : AppRecord, ∀ r' ∈ ((handleSubmit db form (some a) env).1).apps,
      r'.id = a.id → r'.status = a.status) := by
  constructor
  · simp [handleSubmit, hicon, hapk, hscr, hw, hv, versionStep]
    exact ⟨rfl, rfl, rfl, rfl, by simp [mkVersionRecord, storedReleaseNotes]⟩
  · intro a r' hr' hid
    simp only [handleSubmit, hicon, hapk, hscr, hw] at hr'
    rw [versionStep_apps] at hr'
    obtain ⟨r, _, rfl⟩ := List.mem_map.mp hr'
    by_cases h : r.id = a.id
    · simp [h, updatedListing]
    · rw [if_neg h] at hid ⊢
      exact absurd hid h

/-- Witness for `submit_create_defaults_update_preserves_status` at a
concrete input. -/
theorem submit_create_defaults_witness :
    (handleSubmit emptyDb cForm none envOk).2 = SubmitResult.success ∧
      (handleSubmit emptyDb cForm none envOk).1.app_versions
        = emptyDb.app_versions
            ++ [mkVersionRecord envOk.newId cForm "https://x/app.apk" envOk] ∧
      (mkVersionRecord envOk.newId cForm "https://x/app.apk" envOk).release_notes
        = "Initial release" :=
  ⟨(submit_create_defaults_update_preserves_status emptyDb cForm envOk
      "https://x/icon.png" "https://x/app.apk" [] rfl rfl rfl rfl rfl).1.1,
    (submit_create_defaults_update_preserves_status emptyDb cForm envOk
      "https://x/icon.png" "https://x/app.apk" [] rfl rfl rfl rfl rfl).1.2.2.2.2.2.1,
    by decide⟩

/-- C3 counterexample: a submission in which the Version Record insert
fails (its result object carries an error) does NOT abort with an alert:
the listing update stays written, no Version Record is appended, and the
submission completes on the success path, because the code never checks
that insert's error. -/
theorem submit_abort_claim_counterexample :
    envVerApiErr.versionInsert = CallOutcome.apiError ∧
      (handleSubmit oneAppDb cForm (some descOnlyApp) envVerApiErr).2
        = SubmitResult.success ∧
      (handleSubmit oneAppDb cForm (some descOnlyApp) envVerApiErr).1.app_versions
        = oneAppDb.app_versions ∧
      (handleSubmit oneAppDb cForm (some descOnlyApp) envVerApiErr).1.apps
        ≠ oneAppDb.apps := by
  refine ⟨rfl, rfl, rfl, ?_⟩
  decide

/-- C3 amended: a failed asset upload or a failed listing write aborts
the submission with the user-facing alert and writes nothing; a Version
Record insert whose awaited promise rejects also aborts with the alert,
and the listing write already performed is NOT rolled back (the apps
table equals the one of a fully successful run) while no Version Record
is appended; but a Version Record insert failure reported in its result
object is silently ignored — the submission completes successfully with
no Version Record appended and no alert. -/
theorem submit_failure_handling
    (db : Db) (form : SubmitForm) (e : Option AppRecord) (env : SubmitEnv)
    (icon apk : String) (screens : List String) :
    ((resolveAsset form.icon_file form.icon_url = Except.error () →
        handleSubmit db form e env = (db, SubmitResult.failureAlert)) ∧
      (resolveAsset form.apk_file form.apk_url = Except.error () →
        handleSubmit db form e env = (db, SubmitResult.failureAlert)) ∧
      (resolveScreens form.screenshot_files = Except.error () →
        handleSubmit db form e env = (db, SubmitResult.failureAlert))) ∧
    (env.listingWrite ≠ CallOutcome.ok →
      handleSubmit db form e env = (db, SubmitResult.failureAlert)) ∧
    (resolveAsset form.icon_file form.icon_url = Except.ok icon →
      resolveAsset form.apk_file form.apk_url = Except.ok apk →
      resolveScreens form.screenshot_files = Except.ok screens →
      env.listingWrite = CallOutcome.ok →
      ((handleSubmit db form e { env with versionInsert := CallOutcome.netError }).2
          = SubmitResult.failureAlert ∧
        (handleSubmit db form e { env with versionInsert := CallOutcome.netError }).1.apps
          = (handleSubmit db form e { env with versionInsert := CallOutcome.ok }).1.apps ∧
        (handleSubmit db form e { env with versionInsert := CallOutcome.netError }).1.app_versions
          = db.app_versions) ∧
      ((handleSubmit db form e { env with versionInsert := CallOutcome.apiError }).2
          = SubmitResult.success ∧
        (handleSubmit db form e { env with versionInsert := CallOutcome.apiError }).1.app_versions
          = db.app_versions)) := by
  refine ⟨⟨fun h1 => ?_, fun h2 => ?_, fun h3 => ?_⟩, fun hlw => ?_, ?_⟩
  · rcases ha : resolveAsset form.apk_file form.apk_url with _ | apk1 <;>
      rcases hs : resolveScreens form.screenshot_files with _ | scr1 <;>
        simp [handleSubmit, h1, ha, hs]
  · rcases hi : resolveAsset form.icon_file form.icon_url with _ | icon1 <;>
      rcases hs : resolveScreens form.screenshot_files with _ | scr1 <;>
        simp [handleSubmit, h2, hi, hs]
  · rcases hi : resolveAsset form.icon_file form.icon_url with _ | icon1 <;>
      rcases ha : resolveAsset form.apk_file form.apk_url with _ | apk1 <;>
        simp [handleSubmit, h3, hi, ha]
  · rcases hi : resolveAsset form.icon_file form.icon_url with _ | icon1 <;>
      rcases ha : resolveAsset form.apk_file form.apk_url with _ | apk1 <;>
        rcases hs : resolveScreens form.screenshot_files with _ | scr1 <;>
          rcases e with _ | a <;>
            rcases hl : env.listingWrite with _ | _ | _ <;>
              simp_all [handleSubmit]
  · intro hicon hapk hscr hlw
    rcases e with _ | a <;>
      simp [handleSubmit, hicon, hapk, hscr, hlw, versionStep, createdListing,
        updatedListing]

/-- Witness for `submit_failure_handling` at a concrete input. -/
theorem submit_failure_handling_witness :
    (handleSubmit oneAppDb cForm (some descOnlyApp) { envOk with versionInsert := CallOutcome.netError }).2
        = SubmitResult.failureAlert ∧
      (handleSubmit oneAppDb cForm (some descOnlyApp) { envOk with versionInsert := CallOutcome.apiError }).2
        = SubmitResult.success :=
  ⟨((submit_failure_handling oneAppDb cForm (some descOnlyApp) envOk
        "https://x/icon.png" "https://x/app.apk" []).2.2 rfl rfl rfl rfl).1.1,
    ((submit_failure_handling oneAppDb cForm (some descOnlyApp) envOk
        "https://x/icon.png" "https://x/app.apk" []).2.2 rfl rfl rfl rfl).2.1⟩

/-- C9 counterexample: a submission carrying six screenshot files is
accepted, and all six are uploaded and stored — no five-file limit is
enforced (the form merely labels the input "Up to 5"). -/
theorem screenshot_limit_counterexample :
    cForm6.screenshot_files.length = 6 ∧
      ((handleSubmit emptyDb cForm6 none envOk).1.apps.map fun a => a.screenshots)
        = [["u1", "u2", "u3", "u4", "u5", "u6"]] := by
  exact ⟨rfl, rfl⟩

/-- C9 amended: the form accepts optional icon and package files and any
number of screenshot files; every selected screenshot file is uploaded
(one URL per file, no truncation), and on the update path the new
uploads are appended after the existing screenshot set. -/
theorem submit_screenshots_appended
    (db : Db) (form : SubmitForm) (a : AppRecord) (env : SubmitEnv)
    (icon apk : String) (screens : List String)
    (hicon : resolveAsset form.icon_file form.icon_url = Except.ok icon)
    (hapk : resolveAsset form.apk_file form.apk_url = Except.ok apk)
    (hscr : resolveScreens form.screenshot_files = Except.ok screens)
    (hw : env.listingWrite = CallOutcome.ok) :
    screens.length = form.screenshot_files.length ∧
      (∀ r ∈ db.apps, r.id = a.id →
        updatedListing r form a icon apk (a.screenshots ++ screens) env
          ∈ (handleSubmit db form (some a) env).1.apps) ∧
      (updatedListing a form a icon apk (a.screenshots ++ screens) env).screenshots
        = a.screenshots ++ screens := by
  refine ⟨?_, fun r hr hid => ?_, rfl⟩
  · clear hicon hapk hw
    generalize form.screenshot_files = files at hscr ⊢
    induction files generalizing screens with
    | nil =>
        simp only [resolveScreens, Except.ok.injEq] at hscr
        simp [← hscr]
    | cons f rest ih =>
        cases f with
        | succeeds u =>
            simp only [resolveScreens] at hscr
            cases hrest : resolveScreens rest with
            | ok us =>
                rw [hrest] at hscr
                simp only [Except.ok.injEq] at hscr
                simp [← hscr, ih us hrest]
            | error e => rw [hrest] at hscr; simp at hscr
        | fails o => simp [resolveScreens] at hscr
  · simp only [handleSubmit, hicon, hapk, hscr, hw]
    rw [versionStep_apps]
    exact List.mem_map.mpr ⟨r, hr, by simp [hid]⟩

/-- Witness for `submit_screenshots_appended` at a concrete input. -/
theorem submit_screenshots_appended_witness :
    (["u1", "u2", "u3", "u4", "u5", "u6"] : List String).length
        = cForm6.screenshot_files.length ∧
      updatedListing descOnlyApp cForm6 descOnlyApp "https://x/icon.png" "https://x/app.apk" (descOnlyApp.screenshots ++ ["u1", "u2", "u3", "u4", "u5", "u6"]) envOk
        ∈ (handleSubmit oneAppDb cForm6 (some descOnlyApp) envOk).1.apps :=
  ⟨(submit_screenshots_appended oneAppDb cForm6 descOnlyApp envOk
      "https://x/icon.png" "https://x/app.apk" ["u1", "u2", "u3", "u4", "u5", "u6"]
      rfl rfl rfl rfl).1,
    (submit_screenshots_appended oneAppDb cForm6 descOnlyApp envOk
      "https://x/icon.png" "https://x/app.apk" ["u1", "u2", "u3", "u4", "u5", "u6"]
      rfl rfl rfl rfl).2.1 descOnlyApp (by decide) rfl⟩

/-- C7 counterexample: with no listing under the requested identifier,
the page does not fail — the catch branch installs the hardcoded mock
listing, so a listing named "Nexus Browser" is rendered. -/
theorem detail_not_found_counterexample :
    (emptyDb.apps.filter fun x => x.id = "z") = [] ∧
      (fetchAppDetails emptyDb "z" 7).app = some (mockDetailApp "z" 7) ∧
      (fetchAppDetails emptyDb "z" 7).app ≠ none ∧
      (mockDetailApp "z" 7).name = "Nexus Browser" := by
  refine ⟨rfl, rfl, by decide, rfl⟩

/-- C7 amended: when exactly one listing carries the identifier, the
page shows that listing together with all of its reviews ordered
newest-first; when none does, the single-row fetch errors but the
handler catches it and renders the built-in mock listing with an empty
review list — the page does not fail. -/
theorem detail_fetch_behavior :
    ∀ (db : Db) (id : String) (now : Nat),
      (∀ a : AppRecord, (db.apps.filter fun x => x.id = id) = [a] →
        (fetchAppDetails db id now).app = some a ∧
          ((fetchAppDetails db id now).reviews).Perm
            (db.reviews.filter fun r => r.app_id = id) ∧
          List.Pairwise (fun r1 r2 : Review => r2.created_at ≤ r1.created_at)
            (fetchAppDetails db id now).reviews) ∧
      ((db.apps.filter fun x => x.id = id) = [] →
        fetchAppDetails db id now
          = { app := some (mockDetailApp id now), reviews := [] }) := by
  intro db id now
  constructor
  · intro a ha
    refine ⟨?_, ?_, ?_⟩
    · simp [fetchAppDetails, ha]
    · simp only [fetchAppDetails, ha]
      exact List.mergeSort_perm _ _
    · simp only [fetchAppDetails, ha]
      have h := @List.sorted_mergeSort Review
        (fun r1 r2 : Review => decide (r2.created_at ≤ r1.created_at))
        (fun x y z hxy hyz => by
          simp only [decide_eq_true_eq] at *
          omega)
        (fun x y => by
          simp only [Bool.or_eq_true, decide_eq_true_eq]
          exact Nat.le_total y.created_at x.created_at)
        (db.reviews.filter fun r => r.app_id = id)
      exact h.imp fun hab => by simpa using hab
  · intro h0
    simp [fetchAppDetails, h0]

/-- Witness for `detail_fetch_behavior` at a concrete input. -/
theorem detail_fetch_behavior_witness :
    (richDb.apps.filter fun x => x.id = "a1") = [descOnlyApp] ∧
      (fetchAppDetails richDb "a1" 0).app = some descOnlyApp ∧
      ((fetchAppDetails richDb "a1" 0).reviews).Perm
        (richDb.reviews.filter fun r => r.app_id = "a1") :=
  ⟨by decide, ((detail_fetch_behavior richDb "a1" 0).1 descOnlyApp (by decide)).1,
    ((detail_fetch_behavior richDb "a1" 0).1 descOnlyApp (by decide)).2.1⟩

/-- Helper: a submission leaves the apps table unchanged, rewrites it
row-wise with `updatedListing` (update path), or appends one
`createdListing` row (create path). -/
theorem handleSubmit_apps_shape (db : Db) (form : SubmitForm) (e : Option AppRecord)
    (env : SubmitEnv) :
    (handleSubmit db form e env).1.apps = db.apps ∨
      (∃ a icon apk screens, e = some a ∧
        (handleSubmit db form e env).1.apps
          = db.apps.map fun r =>
              if r.id = a.id then
                updatedListing r form a icon apk (a.screenshots ++ screens) env
              else r) ∨
      (∃ icon apk screens,
        (handleSubmit db form e env).1.apps
          = db.apps ++ [createdListing form icon apk screens env]) := by
  rcases hi : resolveAsset form.icon_file form.icon_url with _ | icon <;>
    rcases ha : resolveAsset form.apk_file form.apk_url with _ | apk <;>
      rcases hs : resolveScreens form.screenshot_files with _ | screens <;>
        rcases e with _ | a <;>
          rcases hl : env.listingWrite with _ | _ | _ <;>
            simp only [handleSubmit, hi, ha, hs, hl, versionStep_apps, List.nil_append] <;>
              first
                | exact Or.inl trivial
                | exact Or.inl rfl
                | exact Or.inr (Or.inl ⟨_, _, _, _, rfl, rfl⟩)
                | exact Or.inr (Or.inr ⟨_, _, _, rfl⟩)

/-- C10: across every listing write this client performs — submission
(create or update), status change, rollback, and the download-counter
update (the latter under the single-client premise `opLocalSync`) —
every listing in the resulting table either descends from a stored
listing with the same identifier, a download count that has not
decreased and an unchanged rating, or is the freshly created row, whose
rating and downloads are the initial zeros. -/
theorem writes_keep_downloads_monotone_and_rating
    (db : Db) (op : WriteOp) (hsync : opLocalSync db op) :
    ∀ r' ∈ (applyOp db op).apps,
      (∃ r ∈ db.apps, r'.id = r.id ∧ r.downloads ≤ r'.downloads ∧ r'.rating = r.rating) ∨
        (r'.downloads = 0 ∧ r'.rating = 0) := by
  intro r' hr'
  cases op with
  | submit form e env =>
      simp only [applyOp] at hr'
      rcases handleSubmit_apps_shape db form e env with h | ⟨a, icon, apk, screens, _, h⟩ |
        ⟨icon, apk, screens, h⟩
      · rw [h] at hr'
        exact Or.inl ⟨r', hr', rfl, Nat.le_refl _, rfl⟩
      · rw [h] at hr'
        obtain ⟨r, hr, rfl⟩ := List.mem_map.mp hr'
        by_cases hid : r.id = a.id
        · rw [if_pos hid]
          exact Or.inl ⟨r, hr, rfl, Nat.le_refl _, rfl⟩
        · rw [if_neg hid]
          exact Or.inl ⟨r, hr, rfl, Nat.le_refl _, rfl⟩
      · rw [h] at hr'
        rcases List.mem_append.mp hr' with hmem | hnew
        · exact Or.inl ⟨r', hmem, rfl, Nat.le_refl _, rfl⟩
        · rw [List.mem_singleton.mp hnew]
          exact Or.inr ⟨rfl, rfl⟩
  | statusChange id s w now =>
      cases w <;> simp only [applyOp, handleStatusChange] at hr'
      case ok =>
        obtain ⟨r, hr, rfl⟩ := List.mem_map.mp hr'
        by_cases hid : r.id = id
        · rw [if_pos hid]
          exact Or.inl ⟨r, hr, rfl, Nat.le_refl _, rfl⟩
        · rw [if_neg hid]
          exact Or.inl ⟨r, hr, rfl, Nat.le_refl _, rfl⟩
      all_goals exact Or.inl ⟨r', hr', rfl, Nat.le_refl _, rfl⟩
  | rollback a v w now =>
      cases w <;> simp only [applyOp, handleRollback] at hr'
      case ok =>
        obtain ⟨r, hr, rfl⟩ := List.mem_map.mp hr'
        by_cases hid : r.id = a.id
        · rw [if_pos hid]
          exact Or.inl ⟨r, hr, rfl, Nat.le_refl _, rfl⟩
        · rw [if_neg hid]
          exact Or.inl ⟨r, hr, rfl, Nat.le_refl _, rfl⟩
      all_goals exact Or.inl ⟨r', hr', rfl, Nat.le_refl _, rfl⟩
  | download a w =>
      cases w <;> simp only [applyOp, handleDownload] at hr'
      case ok =>
        obtain ⟨r, hr, rfl⟩ := List.mem_map.mp hr'
        by_cases hid : r.id = a.id
        · rw [if_pos hid]
          refine Or.inl ⟨r, hr, rfl, ?_, rfl⟩
          have := hsync r hr hid
          simp only [this]
          exact Nat.le_succ _
        · rw [if_neg hid]
          exact Or.inl ⟨r, hr, rfl, Nat.le_refl _, rfl⟩
      all_goals exact Or.inl ⟨r', hr', rfl, Nat.le_refl _, rfl⟩

/-- Witness for `writes_keep_downloads_monotone_and_rating` at a
concrete input. -/
theorem writes_keep_downloads_witness :
    opLocalSync oneAppDb (WriteOp.download descOnlyApp CallOutcome.ok) ∧
      ((∃ r ∈ oneAppDb.apps,
          ({ descOnlyApp with downloads := descOnlyApp.downloads + 1 } : AppRecord).id = r.id ∧
            r.downloads ≤ ({ descOnlyApp with downloads := descOnlyApp.downloads + 1 } : AppRecord).downloads ∧
            ({ descOnlyApp with downloads := descOnlyApp.downloads + 1 } : AppRecord).rating = r.rating) ∨
        (({ descOnlyApp with downloads := descOnlyApp.downloads + 1 } : AppRecord).downloads = 0 ∧
          ({ descOnlyApp with downloads := descOnlyApp.downloads + 1 } : AppRecord).rating = 0)) := by
  have hs : opLocalSync oneAppDb (WriteOp.download descOnlyApp CallOutcome.ok) := by
    intro r hr hid
    rw [List.mem_singleton.mp hr]
  exact ⟨hs,
    writes_keep_downloads_monotone_and_rating oneAppDb
      (WriteOp.download descOnlyApp CallOutcome.ok) hs
      { descOnlyApp with downloads := descOnlyApp.downloads + 1 } (by decide)⟩
